import Mathlib

/-!
Verification development for the Mohan-AI chat client (src/app.js).

The JavaScript source is shallowly embedded below.  Pure computations are
translated as Lean functions; the asynchronous request lifecycle is made
explicit by passing the operation outcome as a parameter and recording the
side effects (timer arming and clearing, bookkeeping removal, message list
mutation) in explicit state records and event lists.  All Date.now reads
inside one call are modelled by a single `now` parameter.
-/

namespace MohanAI

/-! ## String helpers mirroring JavaScript string methods -/

/-- Mirrors a character-by-character test that `pat` begins the list `s`,
as used by `String.prototype.startsWith`. -/
def leadMatch : List Char → List Char → Bool
  | [], _ => true
  | _ :: _, [] => false
  | a :: as, b :: bs => a == b && leadMatch as bs

/-- Mirrors the substring scan of `String.prototype.includes`. -/
def hasSub (pat : List Char) : List Char → Bool
  | [] => leadMatch pat []
  | b :: bs => leadMatch pat (b :: bs) || hasSub pat bs

/-- JavaScript `s.includes(pat)`. -/
def jsIncludes (s pat : String) : Bool := hasSub pat.data s.data

/-- JavaScript `s.startsWith(pat)`. -/
def jsStartsWith (s pat : String) : Bool := leadMatch pat.data s.data

/-- JavaScript `s.trim()`: strip whitespace from both ends. -/
def jsTrim (s : String) : String :=
  ⟨((s.data.dropWhile Char.isWhitespace).reverse.dropWhile Char.isWhitespace).reverse⟩

/-! ## Errors -/

/-- A JavaScript `Error` value as far as this code inspects it:
its `name` (e.g. `AbortError`) and its `message`. -/
structure JsError where
  name : String
  message : String
deriving DecidableEq, Repr

/-! ## RequestManager (src/app.js lines 51-102) -/

/-- State of `RequestManager`: `activeRequests` is the `Map` from request
key to the stored pending promise, modelled as an association list from key
to a promise identifier; `nextPromiseId` supplies fresh identifiers so that
two callers receiving the same identifier receive the identical promise. -/
structure RMState where
  activeRequests : List (String × Nat)
  nextPromiseId : Nat
deriving DecidableEq, Repr

/-- The state of a fresh `new RequestManager()`. -/
def rmInit : RMState := ⟨[], 0⟩

/-- Result of the synchronous part of `makeRequest` (lines 56-69): the
promise handed back to the caller, whether `requestFn` was invoked for this
call, and the manager state afterwards. -/
structure SubmitResult where
  promiseId : Nat
  invoked : Bool
  state : RMState
deriving DecidableEq, Repr

/-- Lines 56-69 of `makeRequest`: if `activeRequests` already has `key`,
return the stored promise without invoking anything; otherwise create the
controller and timer, invoke `requestFn` via `executeRequest`, store the
new promise under `key` and return it. -/
def makeRequestSubmit (st : RMState) (key : String) : SubmitResult :=
  match st.activeRequests.find? (fun kv => kv.1 == key) with
  | some kv => ⟨kv.2, false, st⟩
  | none =>
      ⟨st.nextPromiseId, true,
        ⟨st.activeRequests ++ [(key, st.nextPromiseId)], st.nextPromiseId + 1⟩⟩

/-- Outcome of one invocation of `requestFn(signal)` inside
`executeRequest`: the awaited value, or the raised error.  A timer expiry
surfaces as an error named `AbortError` (the `AbortController` fires);
transport failure surfaces as an error whose message contains
`Failed to fetch`. -/
inductive OpOutcome
  | ok (v : String)
  | err (e : JsError)
deriving DecidableEq, Repr

/-- Observable side effects of one executing `makeRequest` call.
`timerFire` records the timeout timer going off (which disarms it);
`clearTimer` records a `clearTimeout` call; `deleteKey` records
`activeRequests.delete(key)`. -/
inductive RMEvent
  | setTimer
  | invoke
  | timerFire
  | clearTimer
  | deleteKey (key : String)
deriving DecidableEq, Repr

/-- Lines 82-97, `executeRequest`: await `requestFn`, clear the timer, and
translate an `AbortError` to `Error('timeout')` and a `Failed to fetch`
message to `Error('network')`; other errors are re-thrown unchanged. -/
def executeRequestRun (outcome : OpOutcome) : Except JsError String × List RMEvent :=
  match outcome with
  | .ok v => (.ok v, [.clearTimer])
  | .err e =>
      let mapped :=
        if e.name == "AbortError" then JsError.mk "Error" "timeout"
        else if jsIncludes e.message "Failed to fetch" then JsError.mk "Error" "network"
        else e
      (.error mapped, [.clearTimer])

/-- The `finally` block of `makeRequest` (lines 76-79): `clearTimeout` and
`activeRequests.delete(key)`.  Deleting is modelled as removing every entry
stored under `key` (the map holds at most one). -/
def finallyCleanup (st : RMState) (key : String) : RMState :=
  { st with activeRequests := st.activeRequests.filter (fun kv => kv.1 != key) }

/-- Complete trace of one executing `makeRequest` call. -/
structure RMRun where
  result : Except JsError String
  events : List RMEvent
  finalState : RMState
deriving Repr

/-- One full `makeRequest` lifecycle for the caller that actually executes
the operation, driven by the eventual outcome of `requestFn`.  A call whose
key is already pending joins the stored promise and has no lifecycle of its
own (no timer, no new entry, no cleanup); that branch returns `none`.
The event order mirrors the source: `setTimeout`, invoke `requestFn`,
(timer fires first when the outcome is the abort), `clearTimeout` inside
`executeRequest`, then the `finally` block: `clearTimeout` again and
`activeRequests.delete(key)`. -/
def makeRequestRun (st : RMState) (key : String) (outcome : OpOutcome) :
    Option RMRun :=
  match st.activeRequests.find? (fun kv => kv.1 == key) with
  | some _ => none
  | none =>
      let stMid : RMState :=
        ⟨st.activeRequests ++ [(key, st.nextPromiseId)], st.nextPromiseId + 1⟩
      let ex := executeRequestRun outcome
      let fired : Bool :=
        match outcome with
        | .err e => e.name == "AbortError"
        | .ok _ => false
      some
        { result := ex.1
          events := [RMEvent.setTimer, RMEvent.invoke]
              ++ (if fired then [RMEvent.timerFire] else [])
              ++ ex.2 ++ [RMEvent.clearTimer, RMEvent.deleteKey key]
          finalState := finallyCleanup stMid key }

/-- Timer bookkeeping over an event trace: whether the timeout timer is
armed after the events, and how many `clearTimeout` calls disarmed an armed
timer (a `clearTimeout` on a fired or already-cleared timer is a no-op). -/
def timerFold : List RMEvent → Bool × Nat → Bool × Nat
  | [], s => s
  | e :: es, (armed, cnt) =>
      match e with
      | .setTimer => timerFold es (true, cnt)
      | .timerFire => timerFold es (false, cnt)
      | .clearTimer => timerFold es (false, if armed then cnt + 1 else cnt)
      | _ => timerFold es (armed, cnt)

/-- Submitting a list of keys in order, keeping only the manager state. -/
def submitList (st : RMState) (keys : List String) : RMState :=
  keys.foldl (fun s k => (makeRequestSubmit s k).state) st

/-- Every pending operation settling: each key runs its `finally` cleanup. -/
def settleList (st : RMState) (keys : List String) : RMState :=
  keys.foldl finallyCleanup st

/-! ## Request keys (lines 644, 666, 683)

The orchestrator builds request keys by string concatenation of a fixed
tag and `Date.now()`, a natural number rendered in decimal.  The decimal
rendering is defined twice: a well-founded form used for proofs and a
structurally recursive fuel form that the kernel can evaluate; the two are
proved equal. -/

/-- The ASCII character of a decimal digit. -/
def digitChar (d : Nat) : Char := Char.ofNat (48 + d)

/-- Decimal digit list of a natural number, most significant first,
well-founded form. -/
def natDecAuxW (n : Nat) (acc : List Char) : List Char :=
  if n < 10 then digitChar n :: acc
  else natDecAuxW (n / 10) (digitChar (n % 10) :: acc)
termination_by n
decreasing_by exact Nat.div_lt_self (by omega) (by omega)

/-- Decimal digit list, fuel form; `fuel ≥ n` always suffices. -/
def natDecAux : Nat → Nat → List Char → List Char
  | 0, n, acc => digitChar n :: acc
  | fuel + 1, n, acc =>
      if n < 10 then digitChar n :: acc
      else natDecAux fuel (n / 10) (digitChar (n % 10) :: acc)

/-- Decimal digit list of a natural number, as produced by the JavaScript
number-to-string conversion for the integers `Date.now()` yields. -/
def natDec (n : Nat) : List Char := natDecAux n n []

/-- Decimal rendering as a string. -/
def natDecStr (n : Nat) : String := ⟨natDec n⟩

/-- Key of a plain chat call: `'chat-' + Date.now()` (line 683). -/
def chatKey (now : Nat) : String := "chat-" ++ natDecStr now

/-- Key of a combined upload call: `'upload-' + Date.now()` (line 666). -/
def uploadKey (now : Nat) : String := "upload-" ++ natDecStr now

/-- Key of a transcription call: `'transcribe-' + Date.now()` (line 644). -/
def transcribeKey (now : Nat) : String := "transcribe-" ++ natDecStr now

theorem natDecAux_eq_W : ∀ fuel n acc, n ≤ fuel → natDecAux fuel n acc = natDecAuxW n acc := by
  intro fuel
  induction fuel with
  | zero =>
      intro n acc h
      have hn : n = 0 := by omega
      subst hn
      rw [natDecAux, natDecAuxW]
      simp
  | succ fuel ih =>
      intro n acc h
      rw [natDecAux, natDecAuxW]
      by_cases h10 : n < 10
      · simp [h10]
      · simp only [if_neg h10]
        exact ih (n / 10) _ (by omega)

theorem natDecAuxW_append (n : Nat) : ∀ acc, natDecAuxW n acc = natDecAuxW n [] ++ acc := by
  induction n using Nat.strong_induction_on with
  | _ n ih =>
    intro acc
    conv_lhs => rw [natDecAuxW]
    conv_rhs => rw [natDecAuxW]
    by_cases h : n < 10
    · simp [h]
    · simp only [if_neg h]
      have hlt : n / 10 < n := Nat.div_lt_self (by omega) (by omega)
      rw [ih (n / 10) hlt (digitChar (n % 10) :: acc),
          ih (n / 10) hlt [digitChar (n % 10)]]
      simp

/-- Value of a digit list read back in base 10 starting from `a`. -/
def decValFrom (a : Nat) (l : List Char) : Nat :=
  l.foldl (fun a c => a * 10 + (c.toNat - 48)) a

theorem digitChar_toNat {d : Nat} (h : d < 10) : (digitChar d).toNat = 48 + d := by
  unfold digitChar
  interval_cases d <;> decide

theorem decValFrom_natDecAuxW (n : Nat) :
    ∀ a, decValFrom a (natDecAuxW n []) = a * 10 ^ (natDecAuxW n []).length + n := by
  induction n using Nat.strong_induction_on with
  | _ n ih =>
    intro a
    by_cases h : n < 10
    · rw [natDecAuxW]
      simp only [if_pos h]
      simp [decValFrom, digitChar_toNat h]
    · conv_lhs => rw [natDecAuxW]
      simp only [if_neg h]
      rw [natDecAuxW_append]
      have hlt : n / 10 < n := Nat.div_lt_self (by omega) (by omega)
      have hmod : n % 10 < 10 := Nat.mod_lt _ (by omega)
      have hsplit : decValFrom a (natDecAuxW (n / 10) [] ++ [digitChar (n % 10)]) =
          decValFrom (decValFrom a (natDecAuxW (n / 10) [])) [digitChar (n % 10)] := by
        simp [decValFrom, List.foldl_append]
      rw [hsplit, ih (n / 10) hlt a]
      simp only [decValFrom, List.foldl, digitChar_toNat hmod]
      have hlen : (natDecAuxW n []).length = (natDecAuxW (n / 10) []).length + 1 := by
        conv_lhs => rw [natDecAuxW]
        simp only [if_neg h]
        rw [natDecAuxW_append]
        simp
      rw [hlen]
      have := Nat.div_add_mod n 10
      ring_nf
      omega

theorem natDec_val (n : Nat) : decValFrom 0 (natDec n) = n := by
  rw [natDec, natDecAux_eq_W n n [] (Nat.le_refl n)]
  have := decValFrom_natDecAuxW n 0
  simpa using this

theorem natDec_inj {m n : Nat} (h : natDec m = natDec n) : m = n := by
  have hm := natDec_val m
  rw [h, natDec_val] at hm
  omega

/-! ## Messages and application state (class MohanAIChatApp) -/

/-- A chat message as stored in `this.messages`.  The optional fields
`cancelled`, `canRetry` and `originalMessage` come from the `options`
spread of `addMessage`; their defaults are the absent JavaScript fields. -/
structure Message where
  id : Nat
  type : String
  content : String
  timestamp : Nat
  cancelled : Bool := false
  canRetry : Bool := false
  originalMessage : Option String := none
deriving DecidableEq, Repr

/-- A user message with fresh id `idv`, as `addMessage('user', text)`
builds it at time `now`. -/
def userMsg (idv : Nat) (text : String) (now : Nat) : Message :=
  { id := idv, type := "user", content := text, timestamp := now }

/-- The `options` argument of `addMessage`. -/
structure MsgOptions where
  cancelled : Bool := false
  canRetry : Bool := false
  originalMessage : Option String := none
deriving DecidableEq, Repr

/-- An attached file, as far as the core logic reads it: name, MIME type
and size in bytes. -/
structure FileRef where
  fname : String
  ftype : String
  fsize : Nat
deriving DecidableEq, Repr

/-- The orchestrator state relevant to the request pipeline (constructor,
lines 106-125).  DOM handles and the model catalog are outside the core;
`currentModel` keeps only the selected model id, `inputValue` mirrors the
text area value, `errorModal` mirrors the message shown by `showError`. -/
structure AppState where
  currentModel : Option String
  messages : List Message
  isLoading : Bool
  conversationId : String
  messageIdCounter : Nat
  inputValue : String
  attachedFile : Option FileRef
  errorModal : Option String := none
deriving DecidableEq, Repr

/-- State right after the constructor ran (before `loadSavedState`). -/
def appInit (convId : String) : AppState :=
  { currentModel := none, messages := [], isLoading := false,
    conversationId := convId, messageIdCounter := 0, inputValue := "",
    attachedFile := none, errorModal := none }

/-- Lines 773-792, `addMessage(type, content, options)`: increment the id
counter, build the message with `Date.now()` and the spread options, and
push it onto `this.messages`.  Rendering side effects are outside the
model. -/
def addMessageOpt (st : AppState) (type content : String) (now : Nat)
    (opts : MsgOptions) : AppState :=
  { st with
    messageIdCounter := st.messageIdCounter + 1
    messages := st.messages ++
      [{ id := st.messageIdCounter + 1, type := type, content := content,
         timestamp := now, cancelled := opts.cancelled,
         canRetry := opts.canRetry, originalMessage := opts.originalMessage }] }

/-- The common `addMessage` call with no options. -/
def addMessage (st : AppState) (type content : String) (now : Nat) : AppState :=
  addMessageOpt st type content now {}

/-- Lines 396-419, `loadSavedState` for the message list.  The saved-state
argument is `none` when localStorage holds no `chatMessages` entry,
`some none` when the entry exists but `JSON.parse` throws, and
`some (some msgs)` when it parses.  The id counter is not touched. -/
def loadSavedState (st : AppState) (saved : Option (Option (List Message))) : AppState :=
  match saved with
  | none => st
  | some none => { st with messages := [] }
  | some (some msgs) => { st with messages := msgs }

/-! ## Chat request body (lines 681-710, `callChatAPI`) -/

/-- One entry of the outgoing `history` array. -/
structure HistEntry where
  role : String
  content : String
  timestamp : Nat
deriving DecidableEq, Repr

/-- The reduction `m => ({role: m.type, content: m.content, timestamp: m.timestamp})`. -/
def histOf (m : Message) : HistEntry := ⟨m.type, m.content, m.timestamp⟩

/-- JavaScript `array.slice(-n)`: the trailing `n` elements, or the whole
array when it is shorter. -/
def jsSliceLast (n : Nat) (l : List α) : List α := l.drop (l.length - n)

/-- Lines 694-697: `this.messages.filter(m => m.type !== 'file-attachment')
.slice(-10).map(...)`. -/
def chatHistory (msgs : List Message) : List HistEntry :=
  (jsSliceLast 10 (msgs.filter (fun m => m.type != "file-attachment"))).map histOf

/-- The JSON body of the chat request (lines 690-698). -/
structure ChatRequest where
  model_id : String
  message : String
  conversation_id : String
  history : List HistEntry
deriving DecidableEq, Repr

/-- Builds the chat request body from the session at call time. -/
def chatRequest (modelId convId : String) (msgs : List Message) (message : String) :
    ChatRequest :=
  ⟨modelId, message, convId, chatHistory msgs⟩

/-! ## Streaming reveal (lines 712-771, `_streamMessage`) -/

/-- Events of the `typeWriter` loop: a `tick` carries the accumulated
content after one more character was appended and re-rendered; `res`
marks the promise resolution. -/
inductive StreamEvent
  | tick (content : String)
  | res
deriving DecidableEq, Repr

/-- The `typeWriter` recursion (lines 756-769) as an event trace: while
characters remain, append `fullContent.charAt(i)` to `message.content` and
re-render; afterwards run the code-block post-processing and resolve. -/
def streamEvents : List Char → String → List StreamEvent
  | [], _ => [.res]
  | c :: cs, acc => .tick (acc.push c) :: streamEvents cs (acc.push c)

/-- Final value of `message.content` after the loop. -/
def streamFinal : List Char → String → String
  | [], acc => acc
  | c :: cs, acc => streamFinal cs (acc.push c)

/-- The successive contents revealed by the ticks. -/
def streamContents (s : String) : List String :=
  (streamEvents s.data "").filterMap
    (fun e => match e with | .tick c => some c | .res => none)

/-- The message-list effect of `_streamMessage(type, content)`: a fresh id,
an initially empty content that the loop grows to the full text. -/
def streamMessage (st : AppState) (type content : String) (now : Nat) : AppState :=
  { st with
    messageIdCounter := st.messageIdCounter + 1
    messages := st.messages ++
      [{ id := st.messageIdCounter + 1, type := type,
         content := streamFinal content.data "", timestamp := now }] }

/-! ## Error classification in sendMessage (lines 613-632) -/

/-- ERROR_MESSAGES.timeout (line 44). -/
def errorMessagesTimeout : String :=
  "Request timed out after 15 seconds. Please try again."

/-- ERROR_MESSAGES.network (line 45). -/
def errorMessagesNetwork : String :=
  "Unable to connect to backend. Please check your backend is running."

/-- ERROR_MESSAGES.serverError (line 46). -/
def errorMessagesServer : String :=
  "Backend server error. The response may be incomplete."

/-- The catch block of `sendMessage` (lines 615-631): pick the user-facing
error text from substring tests on `error.message`.  In the 400 branch the
source interpolates `error.detail`, a field plain `Error` objects lack, so
the template renders the text `undefined`.  The transcription branch reads
`file.name`; when `file` is null the source would raise there, which no
claim exercises, so the absent name also renders as `undefined`. -/
def classifyError (e : JsError) (file : Option FileRef) : String :=
  let base :=
    if jsIncludes e.message "400" then
      "Failed to process message. 400 Error: undefined"
    else if jsIncludes e.message "405" then
      "Failed to process message. 405 Error: Method Not Allowed. This is likely a configuration issue."
    else if jsIncludes e.message "timeout" then errorMessagesTimeout
    else if jsIncludes e.message "network" then errorMessagesNetwork
    else if jsIncludes e.message "server" then errorMessagesServer
    else "Sorry, an unexpected error occurred. Please try again."
  if jsIncludes e.message "Audio transcription failed" then
    "Failed to transcribe "
      ++ (match file with | some f => f.fname | none => "undefined")
      ++ ". Please try again."
  else base

/-! ## File placeholder message (line 573) -/

/-- Index into the Bytes, KB, MB, GB unit array: the floor of the base 1024
logarithm of the size. -/
def sizeUnitIdx (bytes : Nat) : Nat :=
  if bytes < 1024 then 0
  else if bytes < 1024 ^ 2 then 1
  else if bytes < 1024 ^ 3 then 2
  else 3

/-- Lines 910-916, `formatFileSize`.  The source computes the scaled value
with floating-point log, pow and toFixed(1); this model uses exact integer
arithmetic with truncation to one decimal place, and like `parseFloat` it
drops a trailing zero fraction.  No claim depends on this rendering. -/
def formatFileSize (bytes : Nat) : String :=
  if bytes == 0 then "0 Bytes"
  else
    let i := sizeUnitIdx bytes
    let unit := if i == 0 then "Bytes" else if i == 1 then "KB" else if i == 2 then "MB" else "GB"
    let tenths := bytes * 10 / 1024 ^ i
    let num :=
      if tenths % 10 == 0 then natDecStr (tenths / 10)
      else natDecStr (tenths / 10) ++ "." ++ natDecStr (tenths % 10)
    num ++ " " ++ unit

/-- The user-visible placeholder added for an attachment (line 573). -/
def filePlaceholder (f : FileRef) : String :=
  "📄 " ++ f.fname ++ " (" ++ formatFileSize f.fsize ++ ")"

/-! ## sendMessage (lines 561-637) -/

/-- The backend operation a send issues, with its RequestManager key. -/
inductive IssuedRequest
  | chat (key : String) (req : ChatRequest)
  | uploadAndChat (key : String) (file : FileRef) (message : String) (modelId : String)
  | transcribe (key : String) (file : FileRef)
deriving DecidableEq, Repr

/-- Body of the issued request when it is a plain chat call. -/
def issuedChatBody : Option IssuedRequest → Option ChatRequest
  | some (.chat _ req) => some req
  | _ => none

/-- RequestManager key of the issued request. -/
def issuedKey : Option IssuedRequest → Option String
  | some (.chat k _) => some k
  | some (.uploadAndChat k _ _ _) => some k
  | some (.transcribe k _) => some k
  | none => none

/-- One complete run of `sendMessage`, driven by `now` (the Date.now reads
of this call) and by the settled outcome of the awaited backend call.  The
early returns at lines 562 and 567 leave the state unchanged and issue no
request.  Otherwise the user messages are appended, the input and the
attachment are cleared, the matching backend operation is issued, and the
response is streamed (chat and upload), appended directly (transcription),
or classified into the error modal; the finally block resets `isLoading`. -/
def sendMessage (st : AppState) (now : Nat) (outcome : Except JsError String) :
    AppState × Option IssuedRequest :=
  match st.currentModel with
  | none => (st, none)
  | some modelId =>
      if st.isLoading then (st, none)
      else
        let text := jsTrim st.inputValue
        match st.attachedFile with
        | none =>
            if text == "" then (st, none)
            else
              let st1 := addMessage { st with isLoading := true } "user" text now
              let st2 := { st1 with inputValue := "", attachedFile := none }
              let issued := IssuedRequest.chat (chatKey now)
                (chatRequest modelId st2.conversationId st2.messages text)
              match outcome with
              | .ok content =>
                  let st3 := streamMessage st2 "ai" content now
                  ({ st3 with isLoading := false }, some issued)
              | .error e =>
                  let st3 :=
                    { st2 with errorModal := some (classifyError e none), isLoading := false }
                  (st3, some issued)
        | some f =>
            let st1 := addMessage { st with isLoading := true } "user" (filePlaceholder f) now
            let st2 := if text == "" then st1 else addMessage st1 "user" text now
            let st3 := { st2 with inputValue := "", attachedFile := none }
            if jsStartsWith f.ftype "audio" then
              match outcome with
              | .ok transcription =>
                  let st4 := addMessage st3 "ai" ("**Transcription:** " ++ transcription) now
                  ({ st4 with isLoading := false },
                    some (.transcribe (transcribeKey now) f))
              | .error e =>
                  let st4 :=
                    { st3 with errorModal := some (classifyError e (some f)), isLoading := false }
                  (st4, some (.transcribe (transcribeKey now) f))
            else
              match outcome with
              | .ok content =>
                  let st4 := streamMessage st3 "ai" content now
                  ({ st4 with isLoading := false },
                    some (.uploadAndChat (uploadKey now) f text modelId))
              | .error e =>
                  let st4 :=
                    { st3 with errorModal := some (classifyError e (some f)), isLoading := false }
                  (st4, some (.uploadAndChat (uploadKey now) f text modelId))

/-- The guard actually enforced by the source: a selected model, not
already loading, and a non-empty trimmed text or an attachment. -/
def sendGuard (st : AppState) : Bool :=
  st.currentModel.isSome && !st.isLoading
    && (jsTrim st.inputValue != "" || st.attachedFile.isSome)

/-- Modelled from the spec: the guard as the specification sentence states
it, namely text non-empty OR attachment present OR a model is selected.
Kept separate from `sendGuard` to compare the two. -/
def specSendGuard (st : AppState) : Bool :=
  jsTrim st.inputValue != "" || st.attachedFile.isSome || st.currentModel.isSome

/-- Lines 956-975, `retryMessage(messageId)`: find the message; when it
carries a truthy `originalMessage` (absent and empty strings are falsy),
splice it out, put the stored text back into the input and run
`sendMessage` again. -/
def retryMessage (st : AppState) (messageId : Nat) (now : Nat)
    (outcome : Except JsError String) : AppState × Option IssuedRequest :=
  match st.messages.find? (fun m => m.id == messageId) with
  | none => (st, none)
  | some failed =>
      match failed.originalMessage with
      | none => (st, none)
      | some orig =>
          if orig == "" then (st, none)
          else
            let st1 := { st with messages := st.messages.eraseP (fun m => m.id == messageId) }
            sendMessage { st1 with inputValue := orig } now outcome

/-! ## Non-success HTTP responses (lines 650-653, 672-675, 702-705) -/

/-- What became of `await res.json()` on a non-success response: the parsed
body with its optional `detail` field, or the raised parse failure. -/
inductive BodyParse
  | parsed (detail : Option String)
  | failed (e : JsError)
deriving DecidableEq, Repr

/-- The ServerError shape of the taxonomy as this code renders it: an
Error whose message is `HTTP `, the status, a colon and the detail. -/
def mkServerError (status : Nat) (detail : String) : JsError :=
  ⟨"Error", "HTTP " ++ natDecStr status ++ ": " ++ detail⟩

/-- The shared `if (!res.ok)` branch of all three endpoint calls: awaiting
`res.json()` re-raises a parse failure as is; on a parsed body the thrown
error interpolates `errorData.detail`, which renders as the text
`undefined` when the field is absent. -/
def handleErrorResponse (status : Nat) (body : BodyParse) : JsError :=
  match body with
  | .failed e => e
  | .parsed d =>
      ⟨"Error", "HTTP " ++ natDecStr status ++ ": "
        ++ (match d with | some s => s | none => "undefined")⟩

/-! ## Supporting lemmas -/

theorem find?_singleton_self (key : String) (pid : Nat) :
    ([(key, pid)].find? (fun kv : String × Nat => kv.1 == key)) = some (key, pid) := by
  simp [List.find?]

/-! ## Claim theorems -/

/-- C1: if makeRequest is called again for a key whose operation is still
pending, the operation function is not invoked a second time and the second
caller receives the identical pending promise (hence the same eventual
outcome), with the manager state unchanged.  The first submit leaves the
key pending, so the immediately following submit is exactly the claimed
duplicate call. -/
theorem makeRequest_duplicate_submit_joins (st : RMState) (key : String) :
    (makeRequestSubmit (makeRequestSubmit st key).state key).promiseId
        = (makeRequestSubmit st key).promiseId
    ∧ (makeRequestSubmit (makeRequestSubmit st key).state key).invoked = false
    ∧ (makeRequestSubmit (makeRequestSubmit st key).state key).state
        = (makeRequestSubmit st key).state := by
  cases hfind : st.activeRequests.find? (fun kv => kv.1 == key) with
  | some kv =>
      constructor
      · simp [makeRequestSubmit, hfind]
      · constructor <;> simp [makeRequestSubmit, hfind]
  | none =>
      have h2 : ((st.activeRequests ++ [(key, st.nextPromiseId)]).find?
          (fun kv : String × Nat => kv.1 == key)) = some (key, st.nextPromiseId) := by
        rw [List.find?_append, hfind, find?_singleton_self]
        rfl
      constructor
      · simp [makeRequestSubmit, hfind, h2]
      · constructor <;> simp [makeRequestSubmit, hfind, h2]

/-- C7 counterexample: on a non-success status whose error body fails to
parse, the code fails with the parse error itself, not with a ServerError
carrying an empty detail as the claim states. -/
theorem executor_parse_failure_counterexample :
    handleErrorResponse 500 (.failed ⟨"SyntaxError", "Unexpected end of JSON input"⟩)
        = ⟨"SyntaxError", "Unexpected end of JSON input"⟩
    ∧ handleErrorResponse 500 (.failed ⟨"SyntaxError", "Unexpected end of JSON input"⟩)
        ≠ mkServerError 500 "" := by
  constructor
  · rfl
  · decide

/-- C7 amended: a non-success response whose body parses with a detail
field fails with ServerError of that status and detail; when the detail
field is absent the rendered detail is the text undefined; when parsing of
the error body fails the call fails with the parse error itself rather
than a ServerError. -/
theorem executor_server_error_detail (status : Nat) (d : String) (e : JsError) :
    handleErrorResponse status (.parsed (some d)) = mkServerError status d
    ∧ handleErrorResponse status (.failed e) = e
    ∧ handleErrorResponse status (.parsed none) = mkServerError status "undefined" :=
  ⟨rfl, rfl, rfl⟩

theorem streamFinal_eq (l : List Char) : ∀ a : List Char, streamFinal l ⟨a⟩ = ⟨a ++ l⟩ := by
  induction l with
  | nil => intro a; simp [streamFinal]
  | cons c cs ih =>
      intro a
      show streamFinal cs ⟨a ++ [c]⟩ = ⟨a ++ c :: cs⟩
      rw [ih (a ++ [c])]
      simp

theorem streamEvents_count_res (l : List Char) :
    ∀ acc, (streamEvents l acc).count StreamEvent.res = 1 := by
  induction l with
  | nil => intro acc; rfl
  | cons c cs ih =>
      intro acc
      show (StreamEvent.tick (acc.push c) :: streamEvents cs (acc.push c)).count .res = 1
      rw [List.count_cons]
      simp [ih]

theorem streamEvents_ne_nil (l : List Char) (acc : String) : streamEvents l acc ≠ [] := by
  cases l <;> simp [streamEvents]

theorem streamEvents_getLast (l : List Char) :
    ∀ acc, (streamEvents l acc).getLast? = some StreamEvent.res := by
  induction l with
  | nil => intro acc; rfl
  | cons c cs ih =>
      intro acc
      show (StreamEvent.tick (acc.push c) :: streamEvents cs (acc.push c)).getLast? = some .res
      rw [List.getLast?_cons, ih]
      simp [streamEvents_ne_nil]

theorem streamContents_trace (l : List Char) :
    ∀ a : List Char,
      (streamEvents l ⟨a⟩).filterMap
          (fun e => match e with | .tick c => some c | .res => none)
        = (List.range l.length).map (fun n => (⟨a ++ l.take (n + 1)⟩ : String)) := by
  induction l with
  | nil => intro a; rfl
  | cons c cs ih =>
      intro a
      show (StreamEvent.tick ⟨a ++ [c]⟩ :: streamEvents cs ⟨a ++ [c]⟩).filterMap _
          = _
      rw [List.filterMap_cons]
      simp only []
      rw [List.length_cons, List.range_succ_eq_map]
      rw [List.map_cons, List.map_map]
      congr 1
      rw [ih (a ++ [c])]
      apply List.map_congr_left
      intro n _
      show (⟨(a ++ [c]) ++ cs.take (n + 1)⟩ : String) = ⟨a ++ c :: cs.take (n + 1)⟩
      congr 1
      simp

theorem streamContents_chain (l : List Char) :
    ∀ acc : String,
      List.Chain' (fun a b => ∃ c : Char, b = a.push c)
        (acc :: (streamEvents l acc).filterMap
          (fun e => match e with | .tick c => some c | .res => none)) := by
  induction l with
  | nil => intro acc; simp [streamEvents]
  | cons c cs ih =>
      intro acc
      show List.Chain' _ (acc :: (StreamEvent.tick (acc.push c) ::
        streamEvents cs (acc.push c)).filterMap _)
      rw [List.filterMap_cons]
      simp only []
      rw [List.chain'_cons]
      exact ⟨⟨c, rfl⟩, ih (acc.push c)⟩

/-- C6: the streaming reveal of a string ends with content exactly equal
to that string; the resolve signal fires exactly once and after the last
character; every tick appends exactly one character to the accumulated
content (so the already revealed text is never rewritten), and the tick
contents are precisely the successive non-empty takes of the input. -/
theorem streamPresenter_reveals_exactly (s : String) :
    streamFinal s.data "" = s
    ∧ (streamEvents s.data "").count StreamEvent.res = 1
    ∧ (streamEvents s.data "").getLast? = some StreamEvent.res
    ∧ List.Chain' (fun a b => ∃ c : Char, b = a.push c) ("" :: streamContents s)
    ∧ streamContents s
        = (List.range s.length).map (fun n => (⟨s.data.take (n + 1)⟩ : String)) := by
  refine ⟨?_, streamEvents_count_res s.data "", streamEvents_getLast s.data "",
    streamContents_chain s.data "", ?_⟩
  · have h := streamFinal_eq s.data []
    simpa using h
  · have h := streamContents_trace s.data []
    unfold streamContents
    simpa using h

theorem getLast?_drop_of_lt {α : Type _} {l : List α} {k : Nat} (h : k < l.length) :
    (l.drop k).getLast? = l.getLast? := by
  obtain ⟨t, ht⟩ := List.drop_suffix k l
  have hne : l.drop k ≠ [] := by
    intro hnil
    rw [List.drop_eq_nil_iff] at hnil
    omega
  conv_rhs => rw [← ht]
  rw [List.getLast?_append_of_ne_nil _ hne]

/-- C4: the outgoing chat request carries as history the trailing ten
entries of the messages that are not attachment placeholders, reduced to
role, content and timestamp, in original order: its length is ten or the
whole filtered list when shorter, it is a suffix of the reduced filtered
list, and with fifteen plain messages it is exactly the reduction of the
last ten. -/
theorem chat_request_history_window (modelId convId message : String) (msgs : List Message) :
    (chatRequest modelId convId msgs message).history
        = (jsSliceLast 10 (msgs.filter (fun m => m.type != "file-attachment"))).map histOf
    ∧ (chatRequest modelId convId msgs message).history.length
        = min 10 (msgs.filter (fun m => m.type != "file-attachment")).length
    ∧ (chatRequest modelId convId msgs message).history
        <:+ (msgs.filter (fun m => m.type != "file-attachment")).map histOf
    ∧ ((msgs.filter (fun m => m.type != "file-attachment")).length ≤ 10 →
        (chatRequest modelId convId msgs message).history
          = (msgs.filter (fun m => m.type != "file-attachment")).map histOf)
    ∧ (msgs.length = 15 → (∀ m ∈ msgs, m.type ≠ "file-attachment") →
        (chatRequest modelId convId msgs message).history = (msgs.drop 5).map histOf) := by
  refine ⟨rfl, ?_, ?_, ?_, ?_⟩
  · simp only [chatRequest, chatHistory, jsSliceLast, List.length_map, List.length_drop]
    omega
  · exact List.IsSuffix.map histOf (List.drop_suffix _ _)
  · intro h
    simp only [chatRequest, chatHistory, jsSliceLast]
    rw [Nat.sub_eq_zero_of_le h, List.drop_zero]
  · intro hlen hall
    have hfil : msgs.filter (fun m => m.type != "file-attachment") = msgs :=
      List.filter_eq_self.mpr (fun m hm => bne_iff_ne.mpr (hall m hm))
    simp only [chatRequest, chatHistory, jsSliceLast, hfil, hlen]

/-- Concrete session of fifteen plain messages for the C4 witness. -/
def c4Msgs : List Message :=
  (List.range 15).map (fun i => { id := i + 1, type := "user", content := "m", timestamp := i })

/-- C4 witness: the window property evaluated on fifteen plain messages. -/
theorem chat_request_history_window_witness :
    c4Msgs.length = 15
    ∧ (∀ m ∈ c4Msgs, m.type ≠ "file-attachment")
    ∧ (chatRequest "model-a" "conv" c4Msgs "q").history = (c4Msgs.drop 5).map histOf :=
  ⟨by decide, by decide,
    (chat_request_history_window "model-a" "conv" "q" c4Msgs).2.2.2.2 (by decide) (by decide)⟩

theorem chatHistory_getLast_concat (msgs : List Message) (m : Message)
    (h : (m.type != "file-attachment") = true) :
    (chatHistory (msgs ++ [m])).getLast? = some (histOf m) := by
  unfold chatHistory jsSliceLast
  rw [List.filter_append]
  have hm : (List.filter (fun m => m.type != "file-attachment") [m]) = [m] := by
    simp [List.filter, h]
  rw [hm, List.getLast?_map, getLast?_drop_of_lt, List.getLast?_concat]
  · rfl
  · simp only [List.length_append, List.length_cons, List.length_nil]
    omega

/-- C9: on a plain chat send the user message is appended to the session
before the request body is built, so the body is computed over the
extended list; consequently the sent text is both the message field and
the content of the last history entry. -/
theorem sendMessage_sent_text_in_history (st : AppState) (now : Nat)
    (outcome : Except JsError String) (modelId : String)
    (hm : st.currentModel = some modelId) (hl : st.isLoading = false)
    (hf : st.attachedFile = none) (ht : jsTrim st.inputValue ≠ "") :
    issuedChatBody (sendMessage st now outcome).2
        = some (chatRequest modelId st.conversationId
            (st.messages ++ [userMsg (st.messageIdCounter + 1) (jsTrim st.inputValue) now])
            (jsTrim st.inputValue))
    ∧ (chatRequest modelId st.conversationId
          (st.messages ++ [userMsg (st.messageIdCounter + 1) (jsTrim st.inputValue) now])
          (jsTrim st.inputValue)).message = jsTrim st.inputValue
    ∧ (chatRequest modelId st.conversationId
          (st.messages ++ [userMsg (st.messageIdCounter + 1) (jsTrim st.inputValue) now])
          (jsTrim st.inputValue)).history.getLast?
        = some ⟨"user", jsTrim st.inputValue, now⟩ := by
  have ht' : (jsTrim st.inputValue == "") = false := by
    rw [beq_eq_false_iff_ne]
    exact ht
  refine ⟨?_, rfl, ?_⟩
  · unfold sendMessage
    rw [hm]
    simp only [hl, Bool.false_eq_true, if_false, hf, ht', addMessage, addMessageOpt, userMsg]
    cases outcome <;> rfl
  · exact chatHistory_getLast_concat st.messages _ rfl

/-- A ready-to-send session: model selected, not loading, the text hello
in the input, no attachment. -/
def demoSendState : AppState :=
  { currentModel := some "model-a", messages := [], isLoading := false,
    conversationId := "conv", messageIdCounter := 0, inputValue := "hello",
    attachedFile := none }

/-- C9 witness: the property evaluated on a concrete ready-to-send state. -/
theorem sendMessage_sent_text_in_history_witness :
    issuedChatBody (sendMessage demoSendState 7 (.ok "resp")).2
        = some (chatRequest "model-a" "conv" [userMsg 1 "hello" 7] "hello")
    ∧ (chatRequest "model-a" "conv" [userMsg 1 "hello" 7] "hello").history.getLast?
        = some ⟨"user", "hello", 7⟩ := by
  have h := sendMessage_sent_text_in_history demoSendState 7 (.ok "resp") "model-a"
    rfl rfl rfl (by decide)
  exact ⟨h.1, h.2.2⟩

/-- C3 counterexample: with empty text, no attachment and a model
selected, the guard stated by the claim holds, yet sendMessage is a no-op:
state unchanged, no operation issued. -/
theorem sendMessage_spec_guard_counterexample :
    specSendGuard { demoSendState with inputValue := "" } = true
    ∧ sendMessage { demoSendState with inputValue := "" } 0 (.ok "reply")
        = ({ demoSendState with inputValue := "" }, none) := by
  decide

/-- C3 amended: sendMessage issues a backend operation exactly when a
model is selected, no send is already loading, and the trimmed text is
non-empty or an attachment is present; when that guard fails it is a
no-op, and when it holds the message list strictly grows. -/
theorem sendMessage_guard_characterization (st : AppState) (now : Nat)
    (outcome : Except JsError String) :
    ((sendMessage st now outcome).2.isSome = sendGuard st)
    ∧ (sendGuard st = false → sendMessage st now outcome = (st, none))
    ∧ (sendGuard st = true →
        st.messages.length < (sendMessage st now outcome).1.messages.length) := by
  cases hm : st.currentModel with
  | none => simp [sendMessage, sendGuard, hm]
  | some modelId =>
      by_cases hl : st.isLoading = true
      · simp [sendMessage, sendGuard, hm, hl]
      · have hl' : st.isLoading = false := by
          revert hl
          cases st.isLoading <;> simp
        cases hf : st.attachedFile with
        | none =>
            by_cases ht : jsTrim st.inputValue = ""
            · simp [sendMessage, sendGuard, hm, hl', hf, ht]
            · have ht' : (jsTrim st.inputValue == "") = false := beq_eq_false_iff_ne.mpr ht
              cases outcome <;>
                simp [sendMessage, sendGuard, hm, hl', hf, ht', bne, addMessage,
                  addMessageOpt, streamMessage]
        | some f =>
            by_cases ht : jsTrim st.inputValue = ""
            · by_cases haud : jsStartsWith f.ftype "audio" = true
              · cases outcome <;>
                  simp [sendMessage, sendGuard, hm, hl', hf, ht, haud, addMessage,
                    addMessageOpt, streamMessage]
              · have haud' : jsStartsWith f.ftype "audio" = false := by
                  revert haud
                  cases jsStartsWith f.ftype "audio" <;> simp
                cases outcome <;>
                  simp [sendMessage, sendGuard, hm, hl', hf, ht, haud', addMessage,
                    addMessageOpt, streamMessage]
            · have ht' : (jsTrim st.inputValue == "") = false := beq_eq_false_iff_ne.mpr ht
              by_cases haud : jsStartsWith f.ftype "audio" = true
              · cases outcome <;>
                  simp [sendMessage, sendGuard, hm, hl', hf, ht', haud, bne, addMessage,
                    addMessageOpt, streamMessage]
              · have haud' : jsStartsWith f.ftype "audio" = false := by
                  revert haud
                  cases jsStartsWith f.ftype "audio" <;> simp
                cases outcome <;>
                  simp [sendMessage, sendGuard, hm, hl', hf, ht', haud', bne, addMessage,
                    addMessageOpt, streamMessage]

/-- C3 witness: the no-op direction of the amended guard at a concrete
state with empty input and no attachment. -/
theorem sendMessage_guard_characterization_witness :
    sendGuard { demoSendState with inputValue := "" } = false
    ∧ sendMessage { demoSendState with inputValue := "" } 3 (.ok "r")
        = ({ demoSendState with inputValue := "" }, none) :=
  ⟨by decide,
    (sendMessage_guard_characterization { demoSendState with inputValue := "" } 3
      (.ok "r")).2.1 (by decide)⟩

/-- C5 counterexample: the scenario of the claim, sending hello with a
chat failure of HTTP 500 and detail boom.  No message in the resulting
session is marked retryable or stores an original text; the only message
is the user message, the failure surfaces as the generic error modal text,
and retrying the sole message is a no-op. -/
theorem sendMessage_failure_not_retryable_counterexample :
    (sendMessage demoSendState 7 (.error ⟨"Error", "HTTP 500: boom"⟩)).1.messages.all
        (fun m => !m.canRetry && m.originalMessage == none) = true
    ∧ (sendMessage demoSendState 7 (.error ⟨"Error", "HTTP 500: boom"⟩)).1.messages.map
        Message.content = ["hello"]
    ∧ (sendMessage demoSendState 7 (.error ⟨"Error", "HTTP 500: boom"⟩)).1.errorModal
        = some "Sorry, an unexpected error occurred. Please try again."
    ∧ retryMessage (sendMessage demoSendState 7 (.error ⟨"Error", "HTTP 500: boom"⟩)).1
        1 8 (.ok "x")
        = ((sendMessage demoSendState 7 (.error ⟨"Error", "HTTP 500: boom"⟩)).1, none) := by
  decide

/-- Session state after a failed plain chat send: the appended user
message remains, input and attachment are cleared, loading is off and the
classified error text is in the modal. -/
def failedSendState (st : AppState) (e : JsError) (now : Nat) : AppState :=
  { st with
    messages := st.messages ++ [userMsg (st.messageIdCounter + 1) (jsTrim st.inputValue) now]
    messageIdCounter := st.messageIdCounter + 1
    inputValue := ""
    attachedFile := none
    isLoading := false
    errorModal := some (classifyError e none) }

/-- State from which retryMessage re-submits: the failed message spliced
out and its stored text back in the input. -/
def retryResubmitState (st : AppState) (mid : Nat) (orig : String) : AppState :=
  { st with
    messages := st.messages.eraseP (fun m => m.id == mid)
    inputValue := orig }

/-- C5 amended: a failed plain chat send never creates a retryable
message: the session keeps exactly the prior messages plus the plain user
message, none of which carries a retry mark or an original text, and the
classified error is shown in the modal instead; consequently retryMessage
is a no-op on every message of such a session.  The retry machinery acts
only on a message that already stores an original text, in which case it
first removes that message and re-submits exactly that text through
sendMessage. -/
theorem sendMessage_failure_no_retryable (st : AppState) (now : Nat) (e : JsError)
    (modelId : String) (hm : st.currentModel = some modelId) (hl : st.isLoading = false)
    (hf : st.attachedFile = none) (ht : jsTrim st.inputValue ≠ "")
    (hclean : ∀ m ∈ st.messages, m.canRetry = false ∧ m.originalMessage = none) :
    (∀ m ∈ (sendMessage st now (.error e)).1.messages,
        m.canRetry = false ∧ m.originalMessage = none)
    ∧ (sendMessage st now (.error e)).1.errorModal = some (classifyError e none)
    ∧ (sendMessage st now (.error e)).1.messages
        = st.messages ++ [userMsg (st.messageIdCounter + 1) (jsTrim st.inputValue) now]
    ∧ (∀ mid now2 outcome2,
        retryMessage (sendMessage st now (.error e)).1 mid now2 outcome2
          = ((sendMessage st now (.error e)).1, none))
    ∧ (∀ (st2 : AppState) (mid now2 : Nat) (outcome2 : Except JsError String)
          (failed : Message) (orig : String),
        st2.messages.find? (fun m => m.id == mid) = some failed →
        failed.originalMessage = some orig → orig ≠ "" →
        retryMessage st2 mid now2 outcome2
          = sendMessage (retryResubmitState st2 mid orig) now2 outcome2) := by
  have ht' : (jsTrim st.inputValue == "") = false := beq_eq_false_iff_ne.mpr ht
  have hres1 : (sendMessage st now (.error e)).1 = failedSendState st e now := by
    unfold sendMessage
    rw [hm]
    simp only [hl, Bool.false_eq_true, if_false, hf, ht', addMessage, addMessageOpt,
      userMsg, failedSendState]
    rw [hm]
  have hall : ∀ m ∈ (sendMessage st now (.error e)).1.messages,
      m.canRetry = false ∧ m.originalMessage = none := by
    rw [hres1]
    intro m hm2
    rcases List.mem_append.mp hm2 with hin | hin
    · exact hclean m hin
    · rcases List.mem_singleton.mp hin with rfl
      exact ⟨rfl, rfl⟩
  refine ⟨hall, by rw [hres1]; rfl, by rw [hres1]; rfl, ?_, ?_⟩
  · intro mid now2 outcome2
    cases hfind : (sendMessage st now (.error e)).1.messages.find? (fun m => m.id == mid) with
    | none => simp only [retryMessage, hfind]
    | some failed =>
        have hmem := List.mem_of_find?_eq_some hfind
        have horig := (hall failed hmem).2
        simp only [retryMessage, hfind, horig]
  · intro st2 mid now2 outcome2 failed orig hfind horig hne
    have hne' : (orig == "") = false := beq_eq_false_iff_ne.mpr hne
    simp only [retryMessage, hfind, horig, hne', Bool.false_eq_true, if_false,
      retryResubmitState]

/-- C5 witness: the amended statement evaluated on the concrete hello
send failing with HTTP 500 boom. -/
theorem sendMessage_failure_no_retryable_witness :
    (sendMessage demoSendState 7 (.error ⟨"Error", "HTTP 500: boom"⟩)).1.errorModal
        = some (classifyError ⟨"Error", "HTTP 500: boom"⟩ none)
    ∧ (sendMessage demoSendState 7 (.error ⟨"Error", "HTTP 500: boom"⟩)).1.messages
        = [userMsg 1 "hello" 7] := by
  have h := sendMessage_failure_no_retryable demoSendState 7 ⟨"Error", "HTTP 500: boom"⟩
    "model-a" rfl rfl rfl (by decide) (by simp [demoSendState])
  exact ⟨h.2.1, h.2.2.1⟩

theorem makeRequestSubmit_active_sub (st : RMState) (k : String) :
    ∀ kv ∈ (makeRequestSubmit st k).state.activeRequests,
      kv ∈ st.activeRequests ∨ kv.1 = k := by
  intro kv h
  unfold makeRequestSubmit at h
  cases hfind : st.activeRequests.find? (fun kv => kv.1 == k) with
  | some kv2 => rw [hfind] at h; exact Or.inl h
  | none =>
      rw [hfind] at h
      rcases List.mem_append.mp h with h1 | h1
      · exact Or.inl h1
      · rcases List.mem_singleton.mp h1 with rfl
        exact Or.inr rfl

theorem mem_submitList (keys : List String) :
    ∀ (st : RMState) (kv : String × Nat), kv ∈ (submitList st keys).activeRequests →
      kv ∈ st.activeRequests ∨ kv.1 ∈ keys := by
  induction keys with
  | nil =>
      intro st kv h
      exact Or.inl (by simpa [submitList] using h)
  | cons k ks ih =>
      intro st kv h
      have hstep : submitList st (k :: ks) = submitList ((makeRequestSubmit st k).state) ks := rfl
      rw [hstep] at h
      rcases ih _ kv h with h1 | h1
      · rcases makeRequestSubmit_active_sub st k kv h1 with h2 | h2
        · exact Or.inl h2
        · exact Or.inr (h2 ▸ List.mem_cons_self k ks)
      · exact Or.inr (List.mem_cons_of_mem _ h1)

theorem mem_settleList (keys : List String) :
    ∀ (st : RMState) (kv : String × Nat),
      kv ∈ (settleList st keys).activeRequests ↔ kv ∈ st.activeRequests ∧ kv.1 ∉ keys := by
  induction keys with
  | nil => intro st kv; simp [settleList]
  | cons k ks ih =>
      intro st kv
      have hstep : settleList st (k :: ks) = settleList (finallyCleanup st k) ks := rfl
      rw [hstep, ih]
      constructor
      · rintro ⟨hmem, hnot⟩
        rcases List.mem_filter.mp hmem with ⟨hmem2, hcond⟩
        refine ⟨hmem2, ?_⟩
        intro hk
        rcases List.mem_cons.mp hk with hk1 | hk1
        · exact (bne_iff_ne.mp hcond) hk1
        · exact hnot hk1
      · rintro ⟨hmem, hnot⟩
        refine ⟨List.mem_filter.mpr ⟨hmem, ?_⟩, ?_⟩
        · exact bne_iff_ne.mpr (fun hk => hnot (hk ▸ List.mem_cons_self k ks))
        · exact fun hk => hnot (List.mem_cons_of_mem _ hk)

theorem settle_all_empties (keys : List String) :
    (settleList (submitList rmInit keys) keys).activeRequests = [] := by
  rw [List.eq_nil_iff_forall_not_mem]
  intro kv h
  rw [mem_settleList] at h
  obtain ⟨hmem, hnot⟩ := h
  rcases mem_submitList keys rmInit kv hmem with h1 | h1
  · simp [rmInit] at h1
  · exact hnot h1

theorem key_not_mem_finallyCleanup (st : RMState) (key : String) :
    key ∉ (finallyCleanup st key).activeRequests.map Prod.fst := by
  intro h
  rcases List.mem_map.mp h with ⟨kv, hmem, hfst⟩
  rcases List.mem_filter.mp hmem with ⟨_, hcond⟩
  exact (bne_iff_ne.mp hcond) hfst

/-- C2: an executing makeRequest call removes its bookkeeping entry
exactly once on every exit path (success, operation failure, timeout); the
timer ends disarmed, and a clearTimeout disarms it exactly once except on
the timeout path, where the timer already disarmed itself by firing.  The
key is absent from the manager afterwards, and after any sequence of
submissions all settle the pending set is empty. -/
theorem makeRequest_cleanup_exactly_once (st : RMState) (key : String) (outcome : OpOutcome)
    (run : RMRun) (h : makeRequestRun st key outcome = some run) :
    run.events.count (RMEvent.deleteKey key) = 1
    ∧ (timerFold run.events (false, 0)).1 = false
    ∧ (timerFold run.events (false, 0)).2 ≤ 1
    ∧ ((timerFold run.events (false, 0)).2 = 1 ∨ RMEvent.timerFire ∈ run.events)
    ∧ key ∉ run.finalState.activeRequests.map Prod.fst
    ∧ ∀ keys : List String, (settleList (submitList rmInit keys) keys).activeRequests = [] := by
  unfold makeRequestRun at h
  cases hfind : st.activeRequests.find? (fun kv => kv.1 == key) with
  | some kv => rw [hfind] at h; simp at h
  | none =>
      rw [hfind] at h
      have hrun := Option.some.inj h
      subst hrun
      cases outcome with
      | ok v =>
          refine ⟨?_, rfl, Nat.le.refl, Or.inl rfl, key_not_mem_finallyCleanup _ _,
            settle_all_empties⟩
          simp [executeRequestRun, List.count_append, List.count_cons, beq_iff_eq]
      | err e =>
          by_cases habort : e.name = "AbortError"
          · have hb : (e.name == "AbortError") = true := beq_iff_eq.mpr habort
            simp only [executeRequestRun, hb, if_true]
            refine ⟨?_, rfl, Nat.zero_le 1, Or.inr (by simp), key_not_mem_finallyCleanup _ _,
              settle_all_empties⟩
            simp [executeRequestRun, List.count_append, List.count_cons, beq_iff_eq]
          · have hb : (e.name == "AbortError") = false := beq_eq_false_iff_ne.mpr habort
            simp only [executeRequestRun, hb, if_false, Bool.false_eq_true]
            refine ⟨?_, rfl, Nat.le.refl, Or.inl rfl, key_not_mem_finallyCleanup _ _,
              settle_all_empties⟩
            simp [executeRequestRun, List.count_append, List.count_cons, beq_iff_eq]

/-- The run of a single successful makeRequest call from a fresh manager. -/
def c2Run : RMRun :=
  { result := .ok "v"
    events := [.setTimer, .invoke, .clearTimer, .clearTimer, .deleteKey "k"]
    finalState := ⟨[], 1⟩ }

/-- C2 witness: the cleanup facts evaluated on a concrete successful run
and a concrete batch of three keys. -/
theorem makeRequest_cleanup_exactly_once_witness :
    c2Run.events.count (RMEvent.deleteKey "k") = 1
    ∧ (timerFold c2Run.events (false, 0)).1 = false
    ∧ "k" ∉ c2Run.finalState.activeRequests.map Prod.fst
    ∧ (settleList (submitList rmInit ["a", "b", "c"]) ["a", "b", "c"]).activeRequests = [] := by
  have h := makeRequest_cleanup_exactly_once rmInit "k" (.ok "v") c2Run rfl
  exact ⟨h.1, h.2.1, h.2.2.2.2.1, h.2.2.2.2.2 ["a", "b", "c"]⟩

/-- The saved message list restored in the C8 scenario. -/
def c8Saved : List Message := [{ id := 1, type := "user", content := "hi", timestamp := 5 }]

/-- Startup that restores one saved message and then adds one message. -/
def c8State : AppState :=
  addMessage (loadSavedState (appInit "conv") (some (some c8Saved))) "user" "again" 6

/-- C8: loadSavedState restores the message list but leaves
messageIdCounter at zero, so the first message added after a restore gets
id one again: the restored session holds two distinct messages both with
id one, and the id sequence is not strictly increasing. -/
theorem restored_session_reuses_ids :
    c8State.messages.map Message.id = [1, 1]
    ∧ ¬ List.Pairwise (· < ·) (c8State.messages.map Message.id)
    ∧ c8State.messageIdCounter = 1 := by
  decide

theorem chatKey_inj {t u : Nat} (h : chatKey t = chatKey u) : t = u := by
  have h2 : 'c' :: 'h' :: 'a' :: 't' :: '-' :: natDec t = 'c' :: 'h' :: 'a' :: 't' :: '-' :: natDec u :=
    congrArg String.data h
  simp only [List.cons.injEq, true_and] at h2
  exact natDec_inj h2

theorem uploadKey_inj {t u : Nat} (h : uploadKey t = uploadKey u) : t = u := by
  have h2 : 'u' :: 'p' :: 'l' :: 'o' :: 'a' :: 'd' :: '-' :: natDec t
      = 'u' :: 'p' :: 'l' :: 'o' :: 'a' :: 'd' :: '-' :: natDec u :=
    congrArg String.data h
  simp only [List.cons.injEq, true_and] at h2
  exact natDec_inj h2

theorem transcribeKey_inj {t u : Nat} (h : transcribeKey t = transcribeKey u) : t = u := by
  have h2 : 't' :: 'r' :: 'a' :: 'n' :: 's' :: 'c' :: 'r' :: 'i' :: 'b' :: 'e' :: '-' :: natDec t
      = 't' :: 'r' :: 'a' :: 'n' :: 's' :: 'c' :: 'r' :: 'i' :: 'b' :: 'e' :: '-' :: natDec u :=
    congrArg String.data h
  simp only [List.cons.injEq, true_and] at h2
  exact natDec_inj h2

theorem chatKey_ne_uploadKey (t u : Nat) : chatKey t ≠ uploadKey u := by
  intro h
  have h2 : 'c' :: 'h' :: 'a' :: 't' :: '-' :: natDec t = 'u' :: 'p' :: 'l' :: 'o' :: 'a' :: 'd' :: '-' :: natDec u :=
    congrArg String.data h
  injection h2 with h3 _
  exact absurd h3 (by decide)

theorem chatKey_ne_transcribeKey (t u : Nat) : chatKey t ≠ transcribeKey u := by
  intro h
  have h2 : 'c' :: 'h' :: 'a' :: 't' :: '-' :: natDec t
      = 't' :: 'r' :: 'a' :: 'n' :: 's' :: 'c' :: 'r' :: 'i' :: 'b' :: 'e' :: '-' :: natDec u :=
    congrArg String.data h
  injection h2 with h3 _
  exact absurd h3 (by decide)

theorem uploadKey_ne_transcribeKey (t u : Nat) : uploadKey t ≠ transcribeKey u := by
  intro h
  have h2 : 'u' :: 'p' :: 'l' :: 'o' :: 'a' :: 'd' :: '-' :: natDec t
      = 't' :: 'r' :: 'a' :: 'n' :: 's' :: 'c' :: 'r' :: 'i' :: 'b' :: 'e' :: '-' :: natDec u :=
    congrArg String.data h
  injection h2 with h3 _
  exact absurd h3 (by decide)

/-- C10: each request key is its tag plus the decimal millisecond
timestamp, so keys of the same operation agree exactly when the
timestamps agree, keys of different operations never collide, makeRequest
joins (does not invoke) exactly when the submitted key is already pending,
and every key the orchestrator issues is one of the three tagged
timestamp keys for the Date.now of that send. -/
theorem request_keys_embed_timestamp (t u : Nat) (st : RMState) (k : String) :
    (chatKey t = chatKey u ↔ t = u)
    ∧ (uploadKey t = uploadKey u ↔ t = u)
    ∧ (transcribeKey t = transcribeKey u ↔ t = u)
    ∧ chatKey t ≠ uploadKey u
    ∧ chatKey t ≠ transcribeKey u
    ∧ uploadKey t ≠ transcribeKey u
    ∧ ((makeRequestSubmit st k).invoked = false
        ↔ (st.activeRequests.find? (fun kv => kv.1 == k)).isSome)
    ∧ (∀ (app : AppState) (now : Nat) (outcome : Except JsError String) (key2 : String),
        key2 ∈ issuedKey (sendMessage app now outcome).2 →
        key2 = chatKey now ∨ key2 = uploadKey now ∨ key2 = transcribeKey now) := by
  refine ⟨⟨chatKey_inj, fun h => by rw [h]⟩, ⟨uploadKey_inj, fun h => by rw [h]⟩,
    ⟨transcribeKey_inj, fun h => by rw [h]⟩, chatKey_ne_uploadKey t u,
    chatKey_ne_transcribeKey t u, uploadKey_ne_transcribeKey t u, ?_, ?_⟩
  · cases hfind : st.activeRequests.find? (fun kv => kv.1 == k) with
    | some kv => simp [makeRequestSubmit, hfind]
    | none => simp [makeRequestSubmit, hfind]
  · intro app now outcome key2 hmem
    cases hm : app.currentModel with
    | none => simp [sendMessage, hm, issuedKey, Option.mem_def] at hmem
    | some modelId =>
        by_cases hl : app.isLoading = true
        · simp [sendMessage, hm, hl, issuedKey, Option.mem_def] at hmem
        · have hl' : app.isLoading = false := by
            revert hl
            cases app.isLoading <;> simp
          cases hf : app.attachedFile with
          | none =>
              by_cases ht : jsTrim app.inputValue = ""
              · simp [sendMessage, hm, hl', hf, ht, issuedKey, Option.mem_def] at hmem
              · have ht' : (jsTrim app.inputValue == "") = false := beq_eq_false_iff_ne.mpr ht
                cases outcome <;>
                  · simp [sendMessage, hm, hl', hf, ht', issuedKey, Option.mem_def] at hmem
                    exact Or.inl hmem.symm
          | some f =>
              by_cases haud : jsStartsWith f.ftype "audio" = true
              · cases outcome <;>
                  · simp [sendMessage, hm, hl', hf, haud, issuedKey, Option.mem_def] at hmem
                    exact Or.inr (Or.inr hmem.symm)
              · have haud' : jsStartsWith f.ftype "audio" = false := by
                  revert haud
                  cases jsStartsWith f.ftype "audio" <;> simp
                cases outcome <;>
                  · simp [sendMessage, hm, hl', hf, haud', issuedKey, Option.mem_def] at hmem
                    exact Or.inr (Or.inl hmem.symm)

/-- C10 witness: two sends one millisecond apart get different chat keys,
and the key issued by a concrete send is among the three tagged keys. -/
theorem request_keys_embed_timestamp_witness :
    chatKey 1 ≠ chatKey 2
    ∧ (chatKey 7 = chatKey 7 ∨ chatKey 7 = uploadKey 7 ∨ chatKey 7 = transcribeKey 7) := by
  constructor
  · intro heq
    have h12 := (request_keys_embed_timestamp 1 2 rmInit "x").1.mp heq
    omega
  · exact (request_keys_embed_timestamp 7 7 rmInit "x").2.2.2.2.2.2.2
      demoSendState 7 (.ok "r") (chatKey 7) rfl

end MohanAI
